import Mathlib

/-!
Shallow embedding of the go-leak-to-heap examples.

The repository is a set of stand-alone Go functions (functions.go and the
stack-optimization file) paired with benchmarks.  We embed the value-level
behaviour of those functions: Go slices become a pair of the visible
elements (`data`) and the untouched tail of the backing array (`spare`,
so `cap = data.length + spare.length`); machine integers become `Int`
(no example comes near overflow); bytes become `Nat` with an explicit
`% 256` where the width matters; operations that can panic in Go
(`make` with a negative length, reslicing out of range, sending on a
full channel with no receiver) return `Option`, `none` marking the
panic or the blocked operation.
-/

/-- A Go slice of element type α: `data` are the `len` visible elements,
`spare` is the rest of the backing array (stale or zeroed cells between
`len` and `cap`).  `cap s = s.data.length + s.spare.length`. -/
structure GoSlice (α : Type) where
  data : List α
  spare : List α
deriving Repr, DecidableEq

/-- Capacity of a Go slice: visible length plus the unused backing cells. -/
def GoSlice.cap {α : Type} (s : GoSlice α) : Nat :=
  s.data.length + s.spare.length

/-- `append(s, x)` for a single element: reuse a spare backing cell when one
exists, otherwise grow the backing array.  Go grows by a runtime heuristic
(roughly doubling at these sizes); the exact amount of fresh spare capacity
never affects the visible elements, so the heuristic is written as
`max (2 * len) (len + 1)` for the new capacity, fresh cells zeroed. -/
def goAppend {α : Type} [Inhabited α] (s : GoSlice α) (x : α) : GoSlice α :=
  match s.spare with
  | _ :: rest => ⟨s.data ++ [x], rest⟩
  | [] =>
    let newLen := s.data.length + 1
    let newCap := max (2 * s.data.length) newLen
    ⟨s.data ++ [x], List.replicate (newCap - newLen) default⟩

/-- `append(s, l...)`: append a whole list element by element. -/
def goAppendList {α : Type} [Inhabited α] (s : GoSlice α) (l : List α) : GoSlice α :=
  l.foldl goAppend s

/-- `make([]α, n)`: `n` zero-valued elements, capacity `n`. -/
def goMake (α : Type) [Inhabited α] (n : Nat) : GoSlice α :=
  ⟨List.replicate n default, []⟩

/-- `make([]α, n, c)`: `n` zero-valued elements with capacity `c`. -/
def goMakeCap (α : Type) [Inhabited α] (n c : Nat) : GoSlice α :=
  ⟨List.replicate n default, List.replicate (c - n) default⟩

/-- Reslicing `s[:size]`.  Go panics unless `0 <= size <= cap(s)`;
the panic is `none`.  Reslicing past `len` exposes backing cells. -/
def goReslice {α : Type} (s : GoSlice α) (size : Int) : Option (GoSlice α) :=
  if 0 ≤ size ∧ size ≤ (GoSlice.cap s : Int) then
    some ⟨(s.data ++ s.spare).take size.toNat, (s.data ++ s.spare).drop size.toNat⟩
  else
    none

/-- functions.go, Case 5: `createSlice(size int) []int` is
`s := make([]int, size); return s`.  A negative `size` makes `make`
panic with a makeslice length-out-of-range error, modeled as `none`. -/
def createSlice (size : Int) : Option (GoSlice Int) :=
  if size < 0 then none else some (goMake Int size.toNat)

/-- The loop `for i := range *result { (*result)[i] = i }` from
`initSliceViaPointer`, written as the same left-to-right index walk. -/
def fillIndices (s : GoSlice Int) : GoSlice Int :=
  (List.range s.data.length).foldl
    (fun t i => { t with data := t.data.set i (i : Int) }) s

/-- functions.go, Case 11: `initSliceViaPointer(result *[]int, size int)`:
reuse the capacity of `*result` when `cap(*result) >= size`
(the reslice `(*result)[:size]` panics when `size` is negative),
otherwise `make([]int, size)`; then fill index `i` with `i`. -/
def initSliceViaPointer (result : GoSlice Int) (size : Int) : Option (GoSlice Int) :=
  if (GoSlice.cap result : Int) ≥ size then
    (goReslice result size).map fillIndices
  else
    (createSlice size).map fillIndices

/-- C1: the claim says `createSlice` and `initSliceViaPointer` return
without error or panic for every integer size, including negative ones.
At size `-1` both panic: `make([]int, -1)` is a makeslice panic and
`(*result)[:-1]` is a slice-bounds panic. -/
theorem createSlice_neg_panics :
    createSlice (-1) = none ∧ initSliceViaPointer ⟨[], []⟩ (-1) = none := by
  constructor <;> rfl

/-- C1 (amended): for every nonnegative size, `createSlice(size)` and
`initSliceViaPointer(result, size)` complete without error or panic,
for any starting slice `result`. -/
theorem nonneg_sizes_complete (size : Int) (result : GoSlice Int)
    (hsize : 0 ≤ size) :
    (createSlice size).isSome ∧ (initSliceViaPointer result size).isSome := by
  constructor
  · simp [createSlice, not_lt.mpr hsize]
  · by_cases hcap : (GoSlice.cap result : Int) ≥ size
    · simp [initSliceViaPointer, hcap, goReslice, hsize]
    · simp [initSliceViaPointer, hcap, createSlice, not_lt.mpr hsize]

/-- C1 (amended) at a concrete input: size 3 with an empty slice. -/
theorem nonneg_sizes_complete_witness :
    (createSlice 3).isSome ∧ (initSliceViaPointer ⟨[], []⟩ 3).isSome :=
  nonneg_sizes_complete 3 ⟨[], []⟩ (by decide)

/-- Stack-optimization example 15: `useArrayInsteadOfMap(key int) string`
uses the fixed array `[4]string{"zero", "one", "two", "three"}` and
returns `values[key]` when `key >= 0 && key < len(values)`,
otherwise "unknown". -/
def useArrayInsteadOfMap (key : Int) : String :=
  let values : List String := ["zero", "one", "two", "three"]
  if 0 ≤ key ∧ key < (values.length : Int) then values.getD key.toNat ""
  else "unknown"

/-- Heap-allocating counterpart: `mapLookup(key int) string` builds the map
`{0: "zero", 1: "one", 2: "two", 3: "three"}` and returns the hit,
otherwise "unknown".  The map literal is embedded as an association list
with distinct keys, looked up by key equality. -/
def mapLookup (key : Int) : String :=
  let m : List (Int × String) := [(0, "zero"), (1, "one"), (2, "two"), (3, "three")]
  match m.lookup key with
  | some val => val
  | none => "unknown"

/-- C3: the four-entry-table lookup is equivalent to the hash-map lookup:
for every integer key both functions return the same string, namely
"zero".."three" on keys 0..3 and "unknown" on every other key. -/
theorem array_eq_map_lookup (key : Int) :
    useArrayInsteadOfMap key = mapLookup key ∧
    useArrayInsteadOfMap key =
      (if key = 0 then "zero" else if key = 1 then "one"
       else if key = 2 then "two" else if key = 3 then "three"
       else "unknown") := by
  by_cases h0 : key = 0
  · subst h0; exact ⟨rfl, rfl⟩
  by_cases h1 : key = 1
  · subst h1; exact ⟨rfl, rfl⟩
  by_cases h2 : key = 2
  · subst h2; exact ⟨rfl, rfl⟩
  by_cases h3 : key = 3
  · subst h3; exact ⟨rfl, rfl⟩
  have e0 : (key == (0 : Int)) = false := by simpa using h0
  have e1 : (key == (1 : Int)) = false := by simpa using h1
  have e2 : (key == (2 : Int)) = false := by simpa using h2
  have e3 : (key == (3 : Int)) = false := by simpa using h3
  have harr : useArrayInsteadOfMap key = "unknown" := by
    simp only [useArrayInsteadOfMap, List.length_cons, List.length_nil]
    rw [if_neg (by push_cast; omega)]
  have hmap : mapLookup key = "unknown" := by
    simp [mapLookup, List.lookup, e0, e1, e2, e3]
  rw [harr, hmap, if_neg h0, if_neg h1, if_neg h2, if_neg h3]
  exact ⟨rfl, rfl⟩

/-- functions.go, Case 9: `setValueViaPointer(result *int)` does
`*result = 42`.  Memory holding Go ints is an address-to-value map and
the write updates the single addressed cell. -/
def setValueViaPointer (mem : Nat → Int) (result : Nat) : Nat → Int :=
  fun a => if a = result then 42 else mem a

/-- C5: after `setValueViaPointer(r)` the value stored at `r` equals 42,
for every memory and every reference. -/
theorem setValueViaPointer_stores_42 (mem : Nat → Int) (r : Nat) :
    setValueViaPointer mem r r = 42 := by
  simp [setValueViaPointer]

/-- A heap of allocated Go int cells; an address is an index into `cells`. -/
structure Heap where
  cells : List Int
deriving Repr, DecidableEq

/-- Allocate a fresh cell holding `v`; returns the new heap and the address. -/
def Heap.alloc (h : Heap) (v : Int) : Heap × Nat :=
  (⟨h.cells ++ [v]⟩, h.cells.length)

/-- Dereference a heap address. -/
def Heap.deref (h : Heap) (p : Nat) : Int :=
  h.cells.getD p 0

/-- functions.go, Case 1: `returnPointer() *int` is
`x := 42; return &x` — `x` escapes, so the embedding heap-allocates it. -/
def returnPointer (h : Heap) : Heap × Nat :=
  h.alloc 42

/-- functions.go, Case 2: `returnValue() int` is `x := 42; return x`. -/
def returnValue : Int := 42

/-- Comparison example: `returnLocalPointer() *int` is also
`x := 42; return &x`. -/
def returnLocalPointer (h : Heap) : Heap × Nat :=
  h.alloc 42

theorem getD_append_singleton (l : List Int) (x : Int) :
    (l ++ [x]).getD l.length 0 = x := by
  induction l with
  | nil => rfl
  | cons a t ih => simp only [List.cons_append, List.length_cons]; exact ih

/-- C6: `returnValue()` returns 42, and the pointers returned by
`returnPointer()` and `returnLocalPointer()` point at 42, so
dereferencing either pointer result equals `returnValue()`'s result. -/
theorem pointer_value_agreement (h : Heap) :
    returnValue = 42 ∧
    Heap.deref (returnPointer h).1 (returnPointer h).2 = returnValue ∧
    Heap.deref (returnLocalPointer h).1 (returnLocalPointer h).2 = returnValue := by
  refine ⟨rfl, ?_, ?_⟩ <;>
    exact getD_append_singleton h.cells 42

theorem goAppend_data {α : Type} [Inhabited α] (s : GoSlice α) (x : α) :
    (goAppend s x).data = s.data ++ [x] := by
  cases h : s.spare <;> simp [goAppend, h]

theorem goAppendList_data {α : Type} [Inhabited α] (l : List α) :
    ∀ s : GoSlice α, (goAppendList s l).data = s.data ++ l := by
  induction l with
  | nil => intro s; simp [goAppendList]
  | cons a t ih =>
    intro s
    show (goAppendList (goAppend s a) t).data = s.data ++ a :: t
    rw [ih, goAppend_data]
    simp

theorem foldl_goAppend_range {α : Type} [Inhabited α] (f : Nat → α) (n : Nat) :
    ∀ s : GoSlice α,
      ((List.range n).foldl (fun t i => goAppend t (f i)) s).data =
        s.data ++ (List.range n).map f := by
  induction n with
  | zero => intro s; simp
  | succ m ih =>
    intro s
    rw [List.range_succ]
    simp only [List.foldl_append, List.foldl_cons, List.foldl_nil, List.map_append,
      List.map_cons, List.map_nil]
    rw [goAppend_data, ih]
    simp

/-- Stack-optimization example 12: `preallocatedSlice() []int` is
`result := make([]int, 0, 100)` followed by
`for i := 0; i < 100; i++ { result = append(result, i*i) }`. -/
def preallocatedSlice : GoSlice Int :=
  (List.range 100).foldl
    (fun result (i : Nat) => goAppend result ((i : Int) * (i : Int)))
    (goMakeCap Int 0 100)

/-- Heap-allocating counterpart: `sliceGrowth() []int` is
`slice := []int{}` (length 0, capacity 0) followed by the same
`append(slice, i*i)` loop, growing the backing array as it goes. -/
def sliceGrowth : GoSlice Int :=
  (List.range 100).foldl
    (fun slice (i : Nat) => goAppend slice ((i : Int) * (i : Int)))
    ⟨[], []⟩

theorem preallocatedSlice_data :
    preallocatedSlice.data = (List.range 100).map (fun (i : Nat) => (i : Int) * (i : Int)) := by
  rw [preallocatedSlice, foldl_goAppend_range]
  rfl

theorem sliceGrowth_data :
    sliceGrowth.data = (List.range 100).map (fun (i : Nat) => (i : Int) * (i : Int)) := by
  rw [sliceGrowth, foldl_goAppend_range]
  rfl

/-- C4: the pre-sized-buffer idiom computes the same result as the
growing-slice version: both return a slice of length 100 whose element
at every index i is i*i. -/
theorem preallocated_eq_growth :
    preallocatedSlice.data = sliceGrowth.data ∧
    preallocatedSlice.data.length = 100 ∧
    sliceGrowth.data.length = 100 ∧
    ∀ i, i < 100 →
      preallocatedSlice.data.getD i 0 = (i : Int) * (i : Int) ∧
      sliceGrowth.data.getD i 0 = (i : Int) * (i : Int) := by
  have key : ∀ j : Fin 100,
      ((List.range 100).map (fun (i : Nat) => (i : Int) * (i : Int))).getD j.val 0 =
        (j.val : Int) * (j.val : Int) := by decide
  refine ⟨by rw [preallocatedSlice_data, sliceGrowth_data],
          by rw [preallocatedSlice_data]; simp,
          by rw [sliceGrowth_data]; simp,
          fun i h => ?_⟩
  rw [preallocatedSlice_data, sliceGrowth_data]
  exact ⟨key ⟨i, h⟩, key ⟨i, h⟩⟩

/-- C4 at a concrete index: element 7 of both slices is 49. -/
theorem preallocated_eq_growth_witness :
    preallocatedSlice.data.getD 7 0 = ((7 : Nat) : Int) * ((7 : Nat) : Int) ∧
    sliceGrowth.data.getD 7 0 = ((7 : Nat) : Int) * ((7 : Nat) : Int) :=
  preallocated_eq_growth.2.2.2 7 (by decide)

/-- `b ^ 0xFF` on a Go `byte` (uint8): xor with 255, reduced modulo 2^8. -/
def byteXor (b : Nat) : Nat :=
  (Nat.xor b 255) % 256

/-- Stack-optimization example 10: `BufferProcessor` holds a reusable byte
buffer. -/
structure BufferProcessor where
  buffer : GoSlice Nat
deriving Repr, DecidableEq

/-- `NewBufferProcessor()` pre-allocates `make([]byte, 0, 1024)`. -/
def NewBufferProcessor : BufferProcessor :=
  ⟨goMakeCap Nat 0 1024⟩

/-- `(bp *BufferProcessor) ProcessData(data []byte) []byte`:
reset length keeping capacity (`bp.buffer = bp.buffer[:0]`), append
`data`, xor every byte with 0xFF in place, return the buffer.
The reslice to length 0 keeps the whole backing array as spare cells;
the in-place loop `for i := range bp.buffer` maps `byteXor` over the
visible elements. -/
def ProcessData (bp : BufferProcessor) (data : List Nat) :
    BufferProcessor × GoSlice Nat :=
  let buf0 : GoSlice Nat := ⟨[], bp.buffer.data ++ bp.buffer.spare⟩
  let buf1 := goAppendList buf0 data
  let buf2 : GoSlice Nat := ⟨buf1.data.map byteXor, buf1.spare⟩
  (⟨buf2⟩, buf2)

theorem processData_data (bp : BufferProcessor) (data : List Nat) :
    ((ProcessData bp data).2).data = data.map byteXor := by
  simp only [ProcessData]
  rw [goAppendList_data]
  rfl

theorem processData_state (bp : BufferProcessor) (data : List Nat) :
    ((ProcessData bp data).1).buffer.data = data.map byteXor := by
  simp only [ProcessData]
  rw [goAppendList_data]
  rfl

/-- C7: for BufferProcessor, the bytes returned by `ProcessData(data)` and
the visible bytes it leaves stored in the processor depend only on the
argument `data`, never on buffer contents left by earlier calls: two
processors in arbitrary states produce identical results on the same
input. -/
theorem processData_independent_of_state
    (bp1 bp2 : BufferProcessor) (data : List Nat) :
    ((ProcessData bp1 data).2).data = ((ProcessData bp2 data).2).data ∧
    ((ProcessData bp1 data).1).buffer.data =
      ((ProcessData bp2 data).1).buffer.data := by
  rw [processData_data, processData_data, processData_state, processData_state]
  exact ⟨rfl, rfl⟩

set_option maxRecDepth 8192 in
theorem byteXor_invol_fin : ∀ b : Fin 256, byteXor (byteXor b.val) = b.val := by
  decide

theorem byteXor_invol (b : Nat) (h : b < 256) : byteXor (byteXor b) = b :=
  byteXor_invol_fin ⟨b, h⟩

set_option maxRecDepth 8192 in
theorem byteXor_eq_xor_fin : ∀ b : Fin 256, byteXor b.val = Nat.xor b.val 255 := by
  decide

theorem map_byteXor_invol (data : List Nat) (hb : ∀ b ∈ data, b < 256) :
    (data.map byteXor).map byteXor = data := by
  induction data with
  | nil => rfl
  | cons a t ih =>
    have ha : a < 256 := hb a (by simp)
    have ht : ∀ b ∈ t, b < 256 := fun b hbt => hb b (by simp [hbt])
    simp only [List.map_cons, ih ht, byteXor_invol a ha]

theorem getD_map_byteXor (data : List Nat) :
    ∀ i, i < data.length → (data.map byteXor).getD i 0 = byteXor (data.getD i 0) := by
  induction data with
  | nil => intro i h; cases h
  | cons a t ih =>
    intro i h
    cases i with
    | zero => rfl
    | succ j =>
      show (t.map byteXor).getD j 0 = byteXor (t.getD j 0)
      exact ih j (by simpa using h)

theorem getD_lt_256 (data : List Nat) (hb : ∀ b ∈ data, b < 256) :
    ∀ i, i < data.length → data.getD i 0 < 256 := by
  induction data with
  | nil => intro i h; cases h
  | cons a t ih =>
    intro i h
    cases i with
    | zero => exact hb a (by simp)
    | succ j =>
      exact ih (fun b hbt => hb b (by simp [hbt])) j (by simpa using h)

/-- C10: `ProcessData(data)` returns bytes of the same length as `data`,
the byte at every index `i` equal to `data[i] XOR 0xFF`, and applying the
transformation twice to the same bytes yields the original bytes
(for byte-valued inputs, and from any processor states). -/
theorem processData_xor_spec (bp bq : BufferProcessor) (data : List Nat)
    (hb : ∀ b ∈ data, b < 256) :
    ((ProcessData bp data).2).data.length = data.length ∧
    (∀ i, i < data.length →
      ((ProcessData bp data).2).data.getD i 0 = Nat.xor (data.getD i 0) 255) ∧
    ((ProcessData bq ((ProcessData bp data).2).data).2).data = data := by
  refine ⟨by rw [processData_data]; simp, fun i h => ?_, ?_⟩
  · rw [processData_data, getD_map_byteXor data i h]
    exact byteXor_eq_xor_fin ⟨data.getD i 0, getD_lt_256 data hb i h⟩
  · rw [processData_data, processData_data]
    exact map_byteXor_invol data hb

/-- C10 at a concrete input: bytes [0, 255, 7] from fresh processors. -/
theorem processData_xor_spec_witness :
    ((ProcessData NewBufferProcessor [0, 255, 7]).2).data.length =
      ([0, 255, 7] : List Nat).length ∧
    ((ProcessData NewBufferProcessor [0, 255, 7]).2).data.getD 1 0 =
      Nat.xor (([0, 255, 7] : List Nat).getD 1 0) 255 ∧
    ((ProcessData NewBufferProcessor
        ((ProcessData NewBufferProcessor [0, 255, 7]).2).data).2).data =
      [0, 255, 7] := by
  obtain ⟨h1, h2, h3⟩ :=
    processData_xor_spec NewBufferProcessor NewBufferProcessor [0, 255, 7]
      (by decide)
  exact ⟨h1, h2 1 (by decide), h3⟩

/-- A buffered Go channel of ints: a fixed buffer capacity and the values
currently buffered. -/
structure GoChan where
  bufCap : Nat
  buf : List Int
deriving Repr, DecidableEq

/-- One attempt of the send `ch <- x` by the only running goroutine (no
concurrent receiver): it completes immediately exactly when the buffer has
room; on a full buffer the send is disabled and the goroutine blocks,
modeled as `none`. -/
def chanSend (ch : GoChan) (x : Int) : Option GoChan :=
  if ch.buf.length < ch.bufCap then some ⟨ch.bufCap, ch.buf ++ [x]⟩ else none

/-- functions.go, Case 7: `sendToChannel(ch chan int)` is
`x := 42; ch <- x`. -/
def sendToChannel (ch : GoChan) : Option GoChan :=
  chanSend ch 42

/-- C8: the claim says the send in `sendToChannel` always completes
immediately, including when the channel buffer is already full.  On a
capacity-1 channel that already buffers one value the send blocks. -/
theorem sendToChannel_full_blocks :
    sendToChannel ⟨1, [7]⟩ = none := by
  rfl

/-- C8 (amended): the send in `sendToChannel(ch)` completes immediately
whenever the channel buffer is not full; only a full buffer blocks it. -/
theorem sendToChannel_not_full_completes (ch : GoChan)
    (h : ch.buf.length < ch.bufCap) :
    (sendToChannel ch).isSome := by
  simp [sendToChannel, chanSend, h]

/-- C8 (amended) at a concrete input: an empty capacity-1 channel. -/
theorem sendToChannel_not_full_completes_witness :
    (sendToChannel ⟨1, []⟩).isSome :=
  sendToChannel_not_full_completes ⟨1, []⟩ (by decide)

/-- functions.go, Case 3: `LargeStruct` has `data [3000]int`. -/
structure LargeStruct where
  data : List Int
deriving Repr, DecidableEq

/-- The zero value `LargeStruct{}`: 3000 zeroed ints. -/
def LargeStruct.zeroed : LargeStruct :=
  ⟨List.replicate 3000 0⟩

/-- `largeStructPool` modeled as the list of currently pooled objects.
`Get` hands back a cached object when one exists, otherwise calls the
pool's `New`, which returns `&LargeStruct{}`.  (Which cached object the
runtime picks is immaterial here: `useSyncPool` overwrites it.) -/
def poolGet (pool : List LargeStruct) : LargeStruct × List LargeStruct :=
  match pool with
  | [] => (LargeStruct.zeroed, [])
  | obj :: rest => (obj, rest)

/-- Stack-optimization example 8: `useSyncPool()` does
`obj := largeStructPool.Get().(*LargeStruct); *obj = LargeStruct{};
return obj` — the fetched object is reset field by field to the zero
value before it is returned. -/
def useSyncPool (pool : List LargeStruct) : LargeStruct × List LargeStruct :=
  match poolGet pool with
  | (obj, rest) => ({ obj with data := LargeStruct.zeroed.data }, rest)

/-- `returnToPool(obj)` is `largeStructPool.Put(obj)`. -/
def returnToPool (obj : LargeStruct) (pool : List LargeStruct) :
    List LargeStruct :=
  obj :: pool

/-- C9: every call to `useSyncPool` returns a LargeStruct whose entire data
array is zero, for every pool state — in particular for a pool into which
an arbitrarily dirty object was just handed back through `returnToPool`. -/
theorem useSyncPool_returns_zeroed (pool : List LargeStruct)
    (stale : LargeStruct) :
    (useSyncPool pool).1.data = List.replicate 3000 0 ∧
    (useSyncPool (returnToPool stale pool)).1.data = List.replicate 3000 0 := by
  constructor
  · cases pool <;> rfl
  · rfl
